import Mathlib

/-!
Shallow embedding of the `DatabaseService` adapter from
`src/services/database.ts` together with the data model from
`src/types/database.ts`.

Modelling conventions:

* The configured backend kind (`DatabaseConfig.type` in the source, a
  string union at runtime) is a plain `String`, since the source
  `switch` statements compare it against the three literals
  `"postgres"`, `"mysql"`, `"firestore"` and have `default` branches
  for anything else.
* Each operation is `async` and talks to an external backend driver.
  The backend's response to the one request the operation issues is
  passed in as an explicit argument (one argument per backend that the
  operation could consult), so every operation is a pure function of
  the adapter state and the backend responses.
* A JavaScript computation can finish normally, throw an `Error`, or
  fault by dereferencing `undefined` (the source uses the `!` non-null
  assertion, which performs no runtime check).  `JsResult` separates
  the three outcomes; `typeError` is the null-reference-class fault.
-/

/-- Outcome of one adapter operation: normal value, thrown `Error`
with its message, or a null-reference-class runtime fault
(`TypeError`) from dereferencing an absent handle. -/
inductive JsResult (α : Type) where
  | ok (val : α)
  | thrown (msg : String)
  | typeError (msg : String)
deriving Repr, DecidableEq

def JsResult.map {α β : Type} (f : α → β) : JsResult α → JsResult β
  | .ok a => .ok (f a)
  | .thrown m => .thrown m
  | .typeError m => .typeError m

/-- `ColumnInfo` from `src/types/database.ts`. -/
structure ColumnInfo where
  name : String
  type : String
  nullable : Bool
deriving Repr, DecidableEq

/-- `TableInfo` from `src/types/database.ts`. -/
structure TableInfo where
  name : String
  columns : List ColumnInfo
deriving Repr, DecidableEq

/-- `TriggerInfo` from `src/types/database.ts`. -/
structure TriggerInfo where
  name : String
  table : String
  event : String
  timing : String
  statement : String
deriving Repr, DecidableEq

/-- `FunctionInfo` from `src/types/database.ts`. -/
structure FunctionInfo where
  name : String
  language : String
  returnType : String
  arguments : String
  definition : String
deriving Repr, DecidableEq

/-- `DatabaseConnectionConfig` from `src/types/database.ts`
(all fields optional). -/
structure DatabaseConnectionConfig where
  host : Option String := none
  port : Option Nat := none
  database : Option String := none
  user : Option String := none
  password : Option String := none
  projectId : Option String := none
  keyFilename : Option String := none
deriving Repr, DecidableEq

/-- `DatabaseConfig` from `src/types/database.ts`; `type` is a string
at runtime (see modelling conventions above). -/
structure DatabaseConfig where
  type : String
  connection : DatabaseConnectionConfig
deriving Repr, DecidableEq

/-- Handle created by `new pg.Client(config)`. -/
structure PgClient where
  config : DatabaseConnectionConfig
deriving Repr, DecidableEq

/-- Handle created by `mysql.createConnection(config)`. -/
structure MySqlConnection where
  config : DatabaseConnectionConfig
deriving Repr, DecidableEq

/-- Handle created by `new Firestore(config)`. -/
structure FirestoreClient where
  config : DatabaseConnectionConfig
deriving Repr, DecidableEq

/-- The adapter state: configuration plus the three optional backend
handle fields of the `DatabaseService` class. -/
structure DatabaseService where
  config : DatabaseConfig
  postgresClient : Option PgClient
  mysqlConnection : Option MySqlConnection
  firestoreClient : Option FirestoreClient
deriving Repr, DecidableEq

/-- The class constructor: stores the configuration, all handle fields
start out `undefined`. -/
def DatabaseService.new (config : DatabaseConfig) : DatabaseService :=
  { config := config
    postgresClient := none
    mysqlConnection := none
    firestoreClient := none }

/-- `connect()`.  `pgErr` (resp. `myErr`) is the error the
postgres (resp. mysql) driver would report for the handshake, `none`
meaning the handshake succeeds.  Returns the updated adapter state and
the thrown error, if any.  Note the source order for postgres: the
client is assigned to the field before its `connect()` is awaited, so
the handle field is set even when the handshake fails.  The `switch`
has no `default` branch: an unrecognized kind falls through and the
method returns normally without touching any handle field. -/
def DatabaseService.connect (svc : DatabaseService)
    (pgErr myErr : Option String) : DatabaseService × JsResult Unit :=
  if svc.config.type = "postgres" then
    ({ svc with postgresClient := some ⟨svc.config.connection⟩ },
      match pgErr with
      | some e => .thrown e
      | none => .ok ())
  else if svc.config.type = "mysql" then
    match myErr with
    | some e => (svc, .thrown e)
    | none => ({ svc with mysqlConnection := some ⟨svc.config.connection⟩ }, .ok ())
  else if svc.config.type = "firestore" then
    ({ svc with firestoreClient := some ⟨svc.config.connection⟩ }, .ok ())
  else
    (svc, .ok ())

/-- `disconnect()`.  Optional chaining (`?.end()`) means a missing
handle is a silent no-op; `endErr` arguments model errors reported by
the drivers when closing.  Firestore and unknown kinds do nothing. -/
def DatabaseService.disconnect (svc : DatabaseService)
    (pgEndErr myEndErr : Option String) : JsResult Unit :=
  if svc.config.type = "postgres" then
    match svc.postgresClient with
    | none => .ok ()
    | some _ =>
      match pgEndErr with
      | some e => .thrown e
      | none => .ok ()
  else if svc.config.type = "mysql" then
    match svc.mysqlConnection with
    | none => .ok ()
    | some _ =>
      match myEndErr with
      | some e => .thrown e
      | none => .ok ()
  else
    .ok ()

/-- A backend-native scalar value as it appears in a driver result
row.  `other` carries the value's default textual representation
(numbers, booleans, ...), which is exactly what string coercion in
`Array.prototype.join` produces for it. -/
inductive SqlValue where
  | null
  | str (s : String)
  | other (repr : String)
deriving Repr, DecidableEq

/-- A result row as a JavaScript object: association list from column
name to value.  Used for `executeQuery` results and for the rows
consumed by `exportTableData`. -/
abbrev QRow := List (String × SqlValue)

/-- `getTriggers()`.  The relational branches dereference the handle
with a bare `!` assertion (a `TypeError` when absent) and return the
driver rows unchanged; firestore and unknown kinds return `[]`. -/
def DatabaseService.getTriggers (svc : DatabaseService)
    (pgRows myRows : List TriggerInfo) : JsResult (List TriggerInfo) :=
  if svc.config.type = "postgres" then
    match svc.postgresClient with
    | none => .typeError "Cannot read properties of undefined"
    | some _ => .ok pgRows
  else if svc.config.type = "mysql" then
    match svc.mysqlConnection with
    | none => .typeError "Cannot read properties of undefined"
    | some _ => .ok myRows
  else if svc.config.type = "firestore" then
    .ok []
  else
    .ok []

/-- `getFunctions()`.  Same handle discipline as `getTriggers`. -/
def DatabaseService.getFunctions (svc : DatabaseService)
    (pgRows myRows : List FunctionInfo) : JsResult (List FunctionInfo) :=
  if svc.config.type = "postgres" then
    match svc.postgresClient with
    | none => .typeError "Cannot read properties of undefined"
    | some _ => .ok pgRows
  else if svc.config.type = "mysql" then
    match svc.mysqlConnection with
    | none => .typeError "Cannot read properties of undefined"
    | some _ => .ok myRows
  else if svc.config.type = "firestore" then
    .ok []
  else
    .ok []

/-- `executeQuery(query)`.  The relational branches explicitly guard
the handle (`connection not found`); firestore always throws before
any backend interaction; unknown kinds throw `Unsupported database
type`.  `pgResp`/`myResp` model the driver outcome for the query. -/
def DatabaseService.executeQuery (svc : DatabaseService) (query : String)
    (pgResp myResp : Except String (List QRow)) : JsResult (List QRow) :=
  if svc.config.type = "postgres" then
    match svc.postgresClient with
    | none => .thrown "PostgreSQL connection not found"
    | some _ =>
      match pgResp with
      | .ok rows => .ok rows
      | .error e => .thrown e
  else if svc.config.type = "mysql" then
    match svc.mysqlConnection with
    | none => .thrown "MySQL connection not found"
    | some _ =>
      match myResp with
      | .ok rows => .ok rows
      | .error e => .thrown e
  else if svc.config.type = "firestore" then
    .thrown "SQL queries are not supported for Firestore"
  else
    .thrown "Unsupported database type"

/-- `exportTableSchema(tableName)`.  `pgRow` models
`result.rows[0]?.create_table_sql` (`none` when the table has no
columns or does not exist), `myRow` models
`result[0]?.[Create Table]`; the source appends `|| ` with the empty
string, which `Option.getD` captures exactly. -/
def DatabaseService.exportTableSchema (svc : DatabaseService) (tableName : String)
    (pgRow myRow : Option String) : JsResult String :=
  if svc.config.type = "postgres" then
    match svc.postgresClient with
    | none => .thrown "PostgreSQL connection not found"
    | some _ => .ok (pgRow.getD "")
  else if svc.config.type = "mysql" then
    match svc.mysqlConnection with
    | none => .thrown "MySQL connection not found"
    | some _ => .ok (myRow.getD "")
  else if svc.config.type = "firestore" then
    .thrown "SQL schema export is not supported for Firestore"
  else
    .thrown "Unsupported database type"

/-- The single-quote character, written by code point to keep quote
handling explicit. -/
def squote : Char := Char.ofNat 39

/-- Doubling of embedded single quotes over the character list, the
effect of `val.replace` with a global single-quote pattern and a
doubled-quote replacement. -/
def escAux : List Char → List Char
  | [] => []
  | c :: cs => if c = squote then squote :: squote :: escAux cs else c :: escAux cs

/-- Character-level rendering of one value by `exportTableData`:
`NULL` for null, single-quoted with doubled internal quotes for
strings, and the default textual representation for everything
else. -/
def formatValData : SqlValue → List Char
  | .null => "NULL".data
  | .str s => squote :: (escAux s.data ++ [squote])
  | .other r => r.data

/-- String-level rendering of one value by `exportTableData`. -/
def formatVal (v : SqlValue) : String := ⟨formatValData v⟩

/-- `Array.prototype.join(sep)`: empty string for the empty array,
otherwise the elements interleaved with the separator. -/
def joinWith (sep : String) : List String → String
  | [] => ""
  | [x] => x
  | x :: y :: xs => x ++ sep ++ joinWith sep (y :: xs)

/-- `row[col]` lookup on a JavaScript object row.  A missing key is
`undefined`, which `Array.prototype.join` renders as the empty string;
`other` with an empty representation models that outcome exactly. -/
def rowGet : QRow → String → SqlValue
  | [], _ => SqlValue.other ""
  | p :: ps, c => if p.1 = c then p.2 else rowGet ps c

/-- The INSERT-statement builder shared verbatim by the postgres and
mysql branches of `exportTableData`: empty string for zero rows,
otherwise the column list is taken from the first row's keys and one
statement per row is emitted, joined by newlines. -/
def buildInserts (tableName : String) (rows : List QRow) : String :=
  match rows with
  | [] => ""
  | r0 :: _ =>
    joinWith "\n" (rows.map fun row =>
      "INSERT INTO " ++ tableName ++ " (" ++ joinWith ", " (r0.map Prod.fst) ++
        ") VALUES (" ++
        joinWith ", " ((r0.map Prod.fst).map fun c => formatVal (rowGet row c)) ++ ");")

/-- `exportTableData(tableName)`.  `pgRows`/`myRows` model the rows
the relational driver returns for the select-all query.  Explicit
handle guards; firestore always throws; unknown kinds throw
`Unsupported database type`. -/
def DatabaseService.exportTableData (svc : DatabaseService) (tableName : String)
    (pgRows myRows : List QRow) : JsResult String :=
  if svc.config.type = "postgres" then
    match svc.postgresClient with
    | none => .thrown "PostgreSQL connection not found"
    | some _ => .ok (buildInserts tableName pgRows)
  else if svc.config.type = "mysql" then
    match svc.mysqlConnection with
    | none => .thrown "MySQL connection not found"
    | some _ => .ok (buildInserts tableName myRows)
  else if svc.config.type = "firestore" then
    .thrown "SQL data export is not supported for Firestore"
  else
    .thrown "Unsupported database type"

/-- Literal fragments of the JSON object text produced for one column
by the mysql metadata query's JSON-object construct (and consumed by
the model of `JSON.parse`). -/
def jsonLit1 : String := "\x7b\"name\":\""

/-- Fragment between the name string and the type string. -/
def jsonLit2 : String := ",\"type\":\""

/-- Fragment between the type string and the nullable flag. -/
def jsonLit3 : String := ",\"nullable\":"

/-- Closing fragment for a nullable column. -/
def trueLit : String := "true\x7d"

/-- Closing fragment for a non-nullable column. -/
def falseLit : String := "false\x7d"

/-- JSON string-content escaping (quote and backslash) over the
character list. -/
def jsonEscAux : List Char → List Char
  | [] => []
  | c :: cs =>
    if c = '"' ∨ c = '\\' then '\\' :: c :: jsonEscAux cs else c :: jsonEscAux cs

/-- JSON string-content escaping at the string level. -/
def jsonEscape (s : String) : String := ⟨jsonEscAux s.data⟩

/-- The JSON object fragment the mysql branch receives for one column
inside the delimited concatenation (the shape the query's JSON-object
construct emits). -/
def columnToJson (c : ColumnInfo) : String :=
  jsonLit1 ++ jsonEscape c.name ++ "\"" ++ jsonLit2 ++ jsonEscape c.type ++ "\"" ++
    jsonLit3 ++ (if c.nullable then trueLit else falseLit)

/-- Drop an expected literal character sequence from the front of the
input, failing on any mismatch. -/
def dropLit : List Char → List Char → Option (List Char)
  | [], cs => some cs
  | _ :: _, [] => none
  | l :: ls, c :: cs => if c = l then dropLit ls cs else none

/-- Parse the body of a JSON string up to and including the closing
quote, undoing the two escapes `jsonEscAux` introduces. -/
def parseJsonStrBody : List Char → Option (List Char × List Char)
  | [] => none
  | c :: rest =>
    if c = '\\' then
      match rest with
      | [] => none
      | c2 :: rest2 =>
        if c2 = '"' ∨ c2 = '\\' then
          (parseJsonStrBody rest2).map (fun p => (c2 :: p.1, p.2))
        else none
    else if c = '"' then some ([], rest)
    else (parseJsonStrBody rest).map (fun p => (c :: p.1, p.2))

/-- Parse one column object of the shape `columnToJson` produces,
returning the column and the unconsumed input. -/
def parseColumnObj (cs : List Char) : Option (ColumnInfo × List Char) :=
  match dropLit jsonLit1.data cs with
  | none => none
  | some cs1 =>
    match parseJsonStrBody cs1 with
    | none => none
    | some (nm, cs2) =>
      match dropLit jsonLit2.data cs2 with
      | none => none
      | some cs3 =>
        match parseJsonStrBody cs3 with
        | none => none
        | some (ty, cs4) =>
          match dropLit jsonLit3.data cs4 with
          | none => none
          | some cs5 =>
            match dropLit trueLit.data cs5 with
            | some cs6 => some (⟨⟨nm⟩, ⟨ty⟩, true⟩, cs6)
            | none =>
              match dropLit falseLit.data cs5 with
              | some cs6 => some (⟨⟨nm⟩, ⟨ty⟩, false⟩, cs6)
              | none => none

/-- Parse a non-empty comma-separated sequence of column objects
terminated by the closing bracket at the very end of the input.  The
fuel argument only bounds the number of objects. -/
def parseColumnsAux : Nat → List Char → Option (List ColumnInfo)
  | 0, _ => none
  | fuel + 1, cs =>
    match parseColumnObj cs with
    | none => none
    | some (col, rest) =>
      match rest with
      | [] => none
      | c :: rest2 =>
        if c = ']' then (if rest2 = [] then some [col] else none)
        else if c = ',' then (parseColumnsAux fuel rest2).map (col :: ·)
        else none

/-- Model of `JSON.parse` restricted to the inputs the mysql
`getTables` branch constructs: a bracketed comma-separated sequence of
column objects (or the empty array). -/
def parseJsonColumnArray (s : String) : Option (List ColumnInfo) :=
  match s.data with
  | [] => none
  | c :: cs =>
    if c = '[' then
      match cs with
      | [] => none
      | c2 :: cs2 =>
        if c2 = ']' then (if cs2 = [] then some [] else none)
        else parseColumnsAux cs.length cs
    else none

/-- The mysql `getTables` row loop: each row's `columns` text is
wrapped in brackets and parsed; a parse failure is a thrown
`SyntaxError` from `JSON.parse`. -/
def parseMyTableRows : List (String × String) → JsResult (List TableInfo)
  | [] => .ok []
  | r :: rs =>
    match parseJsonColumnArray ("[" ++ r.2 ++ "]") with
    | none => .thrown "Unexpected token in JSON"
    | some cols => (parseMyTableRows rs).map (fun ts => ⟨r.1, cols⟩ :: ts)

/-- `getTables()`.  `pgRows` models the postgres aggregation result
(the `json_agg` value arrives as an already-parsed array of column
objects), `myRows` the mysql rows whose `columns` field is the
delimited concatenation of JSON object fragments, `fsCollections` the
firestore collection listing.  The relational and firestore branches
dereference their handle with a bare `!` assertion. -/
def DatabaseService.getTables (svc : DatabaseService)
    (pgRows : List (String × List ColumnInfo))
    (myRows : List (String × String))
    (fsCollections : List String) : JsResult (List TableInfo) :=
  if svc.config.type = "postgres" then
    match svc.postgresClient with
    | none => .typeError "Cannot read properties of undefined"
    | some _ => .ok (pgRows.map fun r => ⟨r.1, r.2⟩)
  else if svc.config.type = "mysql" then
    match svc.mysqlConnection with
    | none => .typeError "Cannot read properties of undefined"
    | some _ => parseMyTableRows myRows
  else if svc.config.type = "firestore" then
    match svc.firestoreClient with
    | none => .typeError "Cannot read properties of undefined"
    | some _ => .ok (fsCollections.map fun id => ⟨id, []⟩)
  else
    .ok []

/-- An adapter built for the given kind on which `connect` has run
successfully. -/
def connectedService (kind : String) (conn : DatabaseConnectionConfig) : DatabaseService :=
  ((DatabaseService.new ⟨kind, conn⟩).connect none none).1

/-- Basic fact: rebuilding a string from its character data is the
identity. -/
theorem strMkData (s : String) : (⟨s.data⟩ : String) = s := by
  cases s
  rfl

/-- Scan a token up to (excluding) the first comma, returning the
token and the unconsumed input, as a SQL consumer tokenizing the
unquoted part of a VALUES list would. -/
def scanTok : List Char → List Char × List Char
  | [] => ([], [])
  | c :: cs =>
    if c = ',' then ([], c :: cs)
    else (c :: (scanTok cs).1, (scanTok cs).2)

theorem scanTok_append_nocomma (l r : List Char) (h : ∀ c ∈ l, c ≠ ',') :
    scanTok (l ++ r) = (l ++ (scanTok r).1, (scanTok r).2) := by
  induction l with
  | nil => simp
  | cons c cs ih =>
    have hc : c ≠ ',' := h c (by simp)
    have ih2 := ih (fun x hx => h x (by simp [hx]))
    simp [scanTok, hc, ih2]

/-- Parse the body of a single-quoted SQL string literal up to and
including the closing quote, undoing the quote doubling: this is how
a standard SQL reader decodes the literals `exportTableData` emits. -/
def parseQuotedBody : List Char → Option (List Char × List Char)
  | [] => none
  | c :: rest =>
    if c = squote then
      match rest with
      | [] => some ([], [])
      | c2 :: rest2 =>
        if c2 = squote then (parseQuotedBody rest2).map (fun p => (squote :: p.1, p.2))
        else some ([], rest)
    else (parseQuotedBody rest).map (fun p => (c :: p.1, p.2))

/-- Parse one value of a VALUES list: a quoted string literal, or an
unquoted token (`NULL`, numbers, ...) delimited by the next comma. -/
def parseSqlValue (cs : List Char) : Option (SqlValue × List Char) :=
  match cs with
  | [] => none
  | c :: rest =>
    if c = squote then (parseQuotedBody rest).map (fun p => (.str ⟨p.1⟩, p.2))
    else
      match scanTok (c :: rest) with
      | (tok, r2) =>
        if tok = [] then none
        else some
          (if (⟨tok⟩ : String) = "NULL" then .null else .other ⟨tok⟩, r2)

/-- Parse a whole VALUES list: values separated by a comma and a
space, consuming the entire input.  The fuel only bounds the number of
values. -/
def parseValueList : Nat → List Char → Option (List SqlValue)
  | 0, _ => none
  | fuel + 1, cs =>
    match parseSqlValue cs with
    | none => none
    | some (v, rest) =>
      match rest with
      | [] => some [v]
      | c :: rest2 =>
        if c = ',' then
          match rest2 with
          | [] => none
          | c2 :: rest3 =>
            if c2 = ' ' then (parseValueList fuel rest3).map (v :: ·)
            else none
        else none

/-- Values whose emitted text a SQL reader can decode unambiguously:
null and string values always qualify; a value emitted via its default
textual representation qualifies when that representation is
non-empty, is not the `NULL` keyword, contains no comma and does not
begin with a quote (numbers and booleans all qualify). -/
def goodValB : SqlValue → Bool
  | .null => true
  | .str _ => true
  | .other r =>
    !(r = "" : Bool) && !(r = "NULL" : Bool) &&
      r.data.all (fun c => !(c = ',' : Bool)) && !(r.data.head? = some squote : Bool)

theorem parseQuotedBody_roundtrip (s rest : List Char)
    (h : rest.head? ≠ some squote) :
    parseQuotedBody (escAux s ++ (squote :: rest)) = some (s, rest) := by
  induction s with
  | nil =>
    match rest, h with
    | [], _ => rw [escAux, List.nil_append, parseQuotedBody.eq_def]; simp
    | c2 :: rest2, h =>
      have hc2 : c2 ≠ squote := by
        intro hc
        exact h (by simp [hc])
      rw [escAux, List.nil_append, parseQuotedBody.eq_def]
      simp [hc2]
  | cons a s' ih =>
    by_cases ha : a = squote
    · subst ha
      simp only [escAux, if_pos rfl, List.cons_append]
      rw [parseQuotedBody.eq_def]
      simp [ih]
    · simp only [escAux, if_neg ha, List.cons_append]
      rw [parseQuotedBody.eq_def]
      simp [ha, ih]

/-- Decoding one emitted value: for well-behaved values (see
`goodValB`), `parseSqlValue` recovers the value exactly from the text
`formatValData` emits, with the remaining input (nothing, or the
separator onward) untouched. -/
theorem parseSqlValue_format (v : SqlValue) (rest : List Char)
    (hg : goodValB v = true)
    (hr : rest = [] ∨ ∃ r2, rest = ',' :: r2) :
    parseSqlValue (formatValData v ++ rest) = some (v, rest) := by
  have hrest_ne : rest.head? ≠ some squote := by
    rcases hr with h | ⟨r2, h⟩ <;> subst h
    · simp
    · simp
      decide
  have hscan_rest : scanTok rest = ([], rest) := by
    rcases hr with h | ⟨r2, h⟩ <;> subst h
    · rfl
    · rw [scanTok]
      simp
  cases v with
  | null =>
    have hd : formatValData SqlValue.null = ['N', 'U', 'L', 'L'] := rfl
    have hsc := scanTok_append_nocomma ['N', 'U', 'L', 'L'] rest (by decide)
    rw [hscan_rest] at hsc
    have hnull : ((⟨['N', 'U', 'L', 'L']⟩ : String) = "NULL") = True := by
      simp
    rw [hd, parseSqlValue.eq_def]
    simp only [List.cons_append, List.nil_append]
    simp only [List.cons_append, List.nil_append] at hsc
    simp [hsc, hnull]
    decide
  | str s =>
    have hd : formatValData (SqlValue.str s) ++ rest
        = squote :: (escAux s.data ++ (squote :: rest)) := by
      simp [formatValData]
    rw [hd, parseSqlValue.eq_def]
    simp [parseQuotedBody_roundtrip s.data rest hrest_ne, strMkData]
  | other r =>
    simp only [goodValB, Bool.and_eq_true, Bool.not_eq_true', decide_eq_false_iff_not,
      List.all_eq_true] at hg
    obtain ⟨⟨⟨hne, hnu⟩, hcom⟩, hhead⟩ := hg
    have hdata_ne : r.data ≠ [] := by
      intro hd
      apply hne
      rw [← strMkData r, hd]
    obtain ⟨c0, rs, hd⟩ : ∃ c0 rs, r.data = c0 :: rs := by
      cases hcase : r.data with
      | nil => exact absurd hcase hdata_ne
      | cons a b => exact ⟨a, b, rfl⟩
    have hc0q : c0 ≠ squote := by
      intro hq
      apply hhead
      rw [hd, hq]
      rfl
    have hnocomma : ∀ c ∈ r.data, c ≠ ',' := by
      intro c hc
      have := hcom c hc
      simpa using this
    have hsc := scanTok_append_nocomma r.data rest hnocomma
    rw [hscan_rest] at hsc
    have htokne : r.data ≠ [] := hdata_ne
    have htokstr : ((⟨r.data⟩ : String) = "NULL") = False := by
      simp only [eq_iff_iff, iff_false]
      rw [strMkData]
      exact hnu
    show parseSqlValue (r.data ++ rest) = some (SqlValue.other r, rest)
    rw [hd] at hsc ⊢
    rw [List.cons_append, parseSqlValue.eq_def]
    simp only [List.cons_append] at hsc
    simp only [if_neg hc0q]
    rw [hsc]
    simp only [List.append_nil, if_neg (by simp : ¬(c0 :: rs : List Char) = [])]
    rw [← hd]
    simp only [strMkData]
    rw [if_neg hnu]

/-- Round trip for a whole VALUES list: parsing the comma-space joined
rendering of a non-empty list of well-behaved values recovers the list
exactly. -/
theorem parseValueList_roundtrip (vs : List SqlValue) (fuel : Nat)
    (hne : vs ≠ []) (hfuel : vs.length ≤ fuel)
    (hgood : ∀ v ∈ vs, goodValB v = true) :
    parseValueList fuel (joinWith ", " (vs.map formatVal)).data = some vs := by
  induction vs generalizing fuel with
  | nil => exact absurd rfl hne
  | cons v tl ih =>
    obtain ⟨f, rfl⟩ : ∃ f, fuel = f + 1 := ⟨fuel - 1, by simp at hfuel; omega⟩
    cases tl with
    | nil =>
      have hj : joinWith ", " ([v].map formatVal) = formatVal v := rfl
      rw [hj, parseValueList]
      have hv := parseSqlValue_format v [] (hgood v (by simp)) (Or.inl rfl)
      rw [List.append_nil] at hv
      rw [show (formatVal v).data = formatValData v from rfl, hv]
    | cons v2 tl2 =>
      have hj : joinWith ", " ((v :: v2 :: tl2).map formatVal)
          = formatVal v ++ ", " ++ joinWith ", " ((v2 :: tl2).map formatVal) := rfl
      rw [hj]
      have hdata : (formatVal v ++ ", " ++ joinWith ", " ((v2 :: tl2).map formatVal)).data
          = formatValData v ++
              (',' :: ' ' :: (joinWith ", " ((v2 :: tl2).map formatVal)).data) := by
        rw [String.data_append, String.data_append]
        rw [show (", " : String).data = [',', ' '] from rfl]
        rw [show (formatVal v).data = formatValData v from rfl]
        simp
      rw [hdata, parseValueList]
      have hv := parseSqlValue_format v
        (',' :: ' ' :: (joinWith ", " ((v2 :: tl2).map formatVal)).data)
        (hgood v (by simp)) (Or.inr ⟨_, rfl⟩)
      rw [hv]
      have hih := ih f (by simp) (by simp at hfuel ⊢; omega)
        (fun x hx => hgood x (List.mem_cons_of_mem v hx))
      simp only [if_pos rfl]
      rw [hih]
      rfl

/-- Dropping an expected literal from an input that begins with it
succeeds and leaves the remainder. -/
theorem dropLit_append (l r : List Char) : dropLit l (l ++ r) = some r := by
  induction l with
  | nil => rfl
  | cons c cs ih => simp [dropLit, ih]

theorem parseJsonStrBody_roundtrip (s rest : List Char) :
    parseJsonStrBody (jsonEscAux s ++ ('"' :: rest)) = some (s, rest) := by
  induction s with
  | nil =>
    rw [jsonEscAux, List.nil_append, parseJsonStrBody.eq_def]
    simp
  | cons a s' ih =>
    by_cases ha : a = '"' ∨ a = '\\'
    · rw [jsonEscAux, if_pos ha, List.cons_append, List.cons_append,
        parseJsonStrBody.eq_def]
      simp [ha, ih]
    · rw [jsonEscAux, if_neg ha, List.cons_append, parseJsonStrBody.eq_def]
      push_neg at ha
      simp [ha.1, ha.2, ih]

theorem parseColumnObj_roundtrip (c : ColumnInfo) (rest : List Char) :
    parseColumnObj ((columnToJson c).data ++ rest) = some (c, rest) := by
  obtain ⟨nm, ty, nb⟩ := c
  have hdq : ("\"" : String).data = ['"'] := rfl
  have hdata : (columnToJson ⟨nm, ty, nb⟩).data ++ rest
      = jsonLit1.data ++ (jsonEscAux nm.data ++ ('"' ::
          (jsonLit2.data ++ (jsonEscAux ty.data ++ ('"' ::
            (jsonLit3.data ++
              ((if nb then trueLit else falseLit).data ++ rest))))))) := by
    simp [columnToJson, jsonEscape, String.data_append, hdq, List.append_assoc]
  rw [hdata, parseColumnObj]
  cases nb with
  | true =>
    simp only [if_pos rfl]
    simp [dropLit_append, parseJsonStrBody_roundtrip, strMkData]
  | false =>
    simp only [Bool.false_eq_true, if_false]
    have htf : dropLit trueLit.data (falseLit.data ++ rest) = none := by
      rw [show trueLit.data = 't' :: "rue\x7d".data from rfl,
        show falseLit.data = 'f' :: "alse\x7d".data from rfl, List.cons_append,
        dropLit]
      rw [if_neg (by decide)]
    simp [dropLit_append, parseJsonStrBody_roundtrip, strMkData, htf]

theorem parseColumnsAux_roundtrip (cols : List ColumnInfo) (hne : cols ≠ []) :
    ∀ fuel, cols.length ≤ fuel →
      parseColumnsAux fuel ((joinWith "," (cols.map columnToJson)).data ++ [']'])
        = some cols := by
  induction cols with
  | nil => exact absurd rfl hne
  | cons c tl ih =>
    intro fuel hf
    obtain ⟨f, rfl⟩ : ∃ f, fuel = f + 1 := ⟨fuel - 1, by simp at hf; omega⟩
    cases tl with
    | nil =>
      have hj : joinWith "," ([c].map columnToJson) = columnToJson c := rfl
      rw [hj, parseColumnsAux, parseColumnObj_roundtrip c [']']]
      simp
    | cons c2 tl2 =>
      have hdata : (joinWith "," ((c :: c2 :: tl2).map columnToJson)).data ++ [']']
          = (columnToJson c).data ++
              (',' :: ((joinWith "," ((c2 :: tl2).map columnToJson)).data ++ [']'])) := by
        rw [show joinWith "," ((c :: c2 :: tl2).map columnToJson)
            = columnToJson c ++ "," ++ joinWith "," ((c2 :: tl2).map columnToJson) from rfl]
        rw [String.data_append, String.data_append,
          show ("," : String).data = [','] from rfl]
        simp
      rw [hdata, parseColumnsAux, parseColumnObj_roundtrip]
      have hih := ih (by simp) f (by simp at hf ⊢; omega)
      simp only [List.map_cons] at hih
      simp [hih]

theorem joinWith_columns_length (cols : List ColumnInfo) :
    cols.length ≤ ((joinWith "," (cols.map columnToJson)).data).length + 1 := by
  induction cols with
  | nil => simp [joinWith]
  | cons c tl ih =>
    cases tl with
    | nil => simp [joinWith]
    | cons c2 tl2 =>
      rw [show joinWith "," ((c :: c2 :: tl2).map columnToJson)
          = columnToJson c ++ "," ++ joinWith "," ((c2 :: tl2).map columnToJson) from rfl]
      rw [String.data_append, String.data_append,
        show ("," : String).data = [','] from rfl]
      simp only [List.length_append, List.length_cons, List.length_nil]
      simp only [List.length_cons] at ih ⊢
      omega

theorem ctj_head (c : ColumnInfo) :
    ∃ tail, (columnToJson c).data = '\x7b' :: tail := by
  have h1 : jsonLit1.data = '\x7b' :: ("\"name\":\"" : String).data := rfl
  refine ⟨("\"name\":\"" : String).data ++ (jsonEscAux c.name.data ++
    (("\"" : String).data ++ (jsonLit2.data ++ (jsonEscAux c.type.data ++
      (("\"" : String).data ++ (jsonLit3.data ++
        (if c.nullable then trueLit else falseLit).data)))))), ?_⟩
  simp only [columnToJson, jsonEscape, String.data_append, h1, List.cons_append,
    List.append_assoc]

theorem parseJsonColumnArray_roundtrip (cols : List ColumnInfo) :
    parseJsonColumnArray ("[" ++ joinWith "," (cols.map columnToJson) ++ "]")
      = some cols := by
  cases cols with
  | nil => decide
  | cons c tl =>
    have hdata : ("[" ++ joinWith "," ((c :: tl).map columnToJson) ++ "]").data
        = '[' :: ((joinWith "," ((c :: tl).map columnToJson)).data ++ [']']) := by
      rw [String.data_append, String.data_append,
        show ("[" : String).data = ['['] from rfl,
        show ("]" : String).data = [']'] from rfl]
      simp
    obtain ⟨tail, htail⟩ := ctj_head c
    have hjoin2 : ∃ rest2, (joinWith "," ((c :: tl).map columnToJson)).data ++ [']']
        = '\x7b' :: rest2 := by
      cases tl with
      | nil =>
        refine ⟨tail ++ [']'], ?_⟩
        rw [show joinWith "," ([c].map columnToJson) = columnToJson c from rfl, htail]
        simp
      | cons c2 tl2 =>
        refine ⟨tail ++ (',' :: ((joinWith ","
          ((c2 :: tl2).map columnToJson)).data ++ [']'])), ?_⟩
        rw [show joinWith "," ((c :: c2 :: tl2).map columnToJson)
            = columnToJson c ++ "," ++ joinWith "," ((c2 :: tl2).map columnToJson) from rfl]
        rw [String.data_append, String.data_append, htail,
          show ("," : String).data = [','] from rfl]
        simp
    obtain ⟨rest2, hrest2⟩ := hjoin2
    have hlen : (c :: tl).length
        ≤ ((joinWith "," ((c :: tl).map columnToJson)).data ++ [']']).length := by
      have := joinWith_columns_length (c :: tl)
      simpa using this
    rw [parseJsonColumnArray.eq_def, hdata, hrest2]
    dsimp only
    rw [if_pos rfl]
    rw [if_neg (by decide : ¬('\x7b' = ']'))]
    rw [← hrest2]
    exact parseColumnsAux_roundtrip (c :: tl) (by simp) _ hlen


/-- The mysql row loop on rows whose `columns` field is the delimited
concatenation the backend produces for a catalog recovers exactly the
catalog's table descriptors. -/
theorem parseMyTableRows_map (cat : List (String × List ColumnInfo)) :
    parseMyTableRows (cat.map fun tc => (tc.1, joinWith "," (tc.2.map columnToJson)))
      = .ok (cat.map fun tc => ⟨tc.1, tc.2⟩) := by
  induction cat with
  | nil => rfl
  | cons tc rest ih =>
    simp only [List.map_cons, parseMyTableRows]
    rw [parseJsonColumnArray_roundtrip, ih]
    rfl

/-- The value-formatting rule as the specification words it: the
unquoted literal token `NULL` for a null value, the value
single-quoted with every embedded single quote doubled for a string
value, and the default textual representation for every other
value. -/
def specFormatValue : SqlValue → String
  | .null => "NULL"
  | .str s =>
    String.singleton squote ++
      (⟨s.data.flatMap fun c => if c = squote then [squote, squote] else [c]⟩ : String) ++
      String.singleton squote
  | .other r => r

/-- Quote doubling agrees with its flat-map phrasing. -/
theorem escAux_eq_bind (l : List Char) :
    escAux l = l.flatMap fun c => if c = squote then [squote, squote] else [c] := by
  induction l with
  | nil => rfl
  | cons a l' ih =>
    by_cases ha : a = squote <;> simp [escAux, ha, ih]

/-- The implementation's value rendering satisfies the specification's
three-case formatting rule. -/
theorem formatVal_eq_spec (v : SqlValue) : formatVal v = specFormatValue v := by
  cases v with
  | null => rfl
  | str s =>
    apply String.ext
    show formatValData (.str s) = _
    have hsq : (String.singleton squote).data = [squote] := rfl
    simp [formatValData, specFormatValue, String.data_append, hsq, escAux_eq_bind]
  | other r => rfl

/-- Looking every column of a duplicate-free key list up in the row
built by zipping the keys with a value list recovers the values. -/
theorem map_rowGet_zip (cols : List String) (vs : List SqlValue)
    (hnd : cols.Nodup) (hlen : vs.length = cols.length) :
    cols.map (rowGet (cols.zip vs)) = vs := by
  induction cols generalizing vs with
  | nil =>
    cases vs with
    | nil => rfl
    | cons v vs' => simp at hlen
  | cons c cs ih =>
    cases vs with
    | nil => simp at hlen
    | cons v vs' =>
      simp only [List.zip_cons_cons, List.map_cons]
      have hhead : rowGet ((c, v) :: cs.zip vs') c = v := by simp [rowGet]
      have hcnotin : c ∉ cs := (List.nodup_cons.mp hnd).1
      have htail : cs.map (rowGet ((c, v) :: cs.zip vs'))
          = cs.map (rowGet (cs.zip vs')) := by
        apply List.map_congr_left
        intro x hx
        have hxc : ¬(c = x) := fun h => hcnotin (h ▸ hx)
        simp [rowGet, hxc]
      rw [hhead, htail, ih vs' (List.nodup_cons.mp hnd).2 (by simpa using hlen)]

/-- Claim C1 (refuting evaluation): on a relational adapter on which
`connect` has never run, the unguarded catalog operations `getTables`,
`getTriggers` and `getFunctions` fail with a null-reference-class
`TypeError` from dereferencing the absent handle — not with an
explicit Not-Connected condition — for every backend response.  Only
`executeQuery`, `exportTableSchema` and `exportTableData` carry the
explicit connection-not-found guard. -/
theorem c1_unconnected_catalog_ops_null_deref :
    (∀ conn pgR myR fsC,
      DatabaseService.getTables (DatabaseService.new ⟨"postgres", conn⟩) pgR myR fsC
        = .typeError "Cannot read properties of undefined") ∧
    (∀ conn pgR myR fsC,
      DatabaseService.getTables (DatabaseService.new ⟨"mysql", conn⟩) pgR myR fsC
        = .typeError "Cannot read properties of undefined") ∧
    (∀ conn pgT myT,
      DatabaseService.getTriggers (DatabaseService.new ⟨"postgres", conn⟩) pgT myT
        = .typeError "Cannot read properties of undefined") ∧
    (∀ conn pgF myF,
      DatabaseService.getFunctions (DatabaseService.new ⟨"mysql", conn⟩) pgF myF
        = .typeError "Cannot read properties of undefined") := by
  refine ⟨?_, ?_, ?_, ?_⟩ <;> intros <;>
    simp [DatabaseService.new, DatabaseService.getTables, DatabaseService.getTriggers,
      DatabaseService.getFunctions]

/-- Claim C2 (refuting evaluation): `connect` on a configuration with
an unrecognized kind returns successfully and leaves the adapter state
unchanged — no backend handle is created and no Unknown-Kind error is
raised, whatever the drivers would have reported. -/
theorem c2_connect_unknown_kind_silent_noop :
    ∀ conn pgErr myErr,
      DatabaseService.connect (DatabaseService.new ⟨"sqlite", conn⟩) pgErr myErr
        = (DatabaseService.new ⟨"sqlite", conn⟩, .ok ()) := by
  intros
  simp [DatabaseService.new, DatabaseService.connect]

/-- Claim C3: on every adapter configured with the document-store
kind, each SQL-only operation deterministically throws its
unsupported-operation error, independent of every backend response
(so no call is ever attempted against the backend) and independent of
the handle state. -/
theorem c3_firestore_sql_ops_unsupported (svc : DatabaseService)
    (h : svc.config.type = "firestore") (q t1 t2 : String)
    (pgQ myQ : Except String (List QRow)) (pgS myS : Option String)
    (pgD myD : List QRow) :
    DatabaseService.executeQuery svc q pgQ myQ
        = .thrown "SQL queries are not supported for Firestore" ∧
    DatabaseService.exportTableSchema svc t1 pgS myS
        = .thrown "SQL schema export is not supported for Firestore" ∧
    DatabaseService.exportTableData svc t2 pgD myD
        = .thrown "SQL data export is not supported for Firestore" := by
  refine ⟨?_, ?_, ?_⟩ <;>
    simp [DatabaseService.executeQuery, DatabaseService.exportTableSchema,
      DatabaseService.exportTableData, h]

/-- Witness for C3: connect on the document-store kind followed
immediately by `executeQuery` yields the unsupported-operation
error. -/
theorem c3_firestore_sql_ops_unsupported_witness :
    DatabaseService.executeQuery (connectedService "firestore" {}) "SELECT 1"
        (.ok []) (.ok [])
      = .thrown "SQL queries are not supported for Firestore" :=
  (c3_firestore_sql_ops_unsupported (connectedService "firestore" {}) rfl
    "SELECT 1" "t" "t" (.ok []) (.ok []) none none [] []).1

/-- Claim C6: on both relational kinds, `exportTableData` returns the
empty string when the select returns zero rows, and
`exportTableSchema` returns the empty string when the backend reports
no create-statement row (table without columns or absent). -/
theorem c6_export_empty_results (conn : DatabaseConnectionConfig) (t : String)
    (myRow pgRow : Option String) :
    DatabaseService.exportTableData (connectedService "postgres" conn) t [] [] = .ok "" ∧
    DatabaseService.exportTableData (connectedService "mysql" conn) t [] [] = .ok "" ∧
    DatabaseService.exportTableSchema (connectedService "postgres" conn) t none myRow
      = .ok "" ∧
    DatabaseService.exportTableSchema (connectedService "mysql" conn) t pgRow none
      = .ok "" := by
  refine ⟨?_, ?_, ?_, ?_⟩ <;>
    simp [DatabaseService.exportTableData, DatabaseService.exportTableSchema,
      connectedService, DatabaseService.connect, DatabaseService.new, buildInserts]

/-- Claim C8: on every adapter configured with the document-store
kind, `getTriggers` and `getFunctions` return the empty sequence and
never raise, independent of the backend responses and of the handle
state. -/
theorem c8_firestore_triggers_functions_empty (svc : DatabaseService)
    (h : svc.config.type = "firestore") (pgT myT : List TriggerInfo)
    (pgF myF : List FunctionInfo) :
    DatabaseService.getTriggers svc pgT myT = .ok [] ∧
    DatabaseService.getFunctions svc pgF myF = .ok [] := by
  constructor <;> simp [DatabaseService.getTriggers, DatabaseService.getFunctions, h]

/-- Witness for C8: even on a document-store adapter on which
`connect` has never run, both operations return the empty sequence. -/
theorem c8_firestore_triggers_functions_empty_witness :
    DatabaseService.getTriggers (DatabaseService.new ⟨"firestore", {}⟩) [] [] = .ok [] ∧
    DatabaseService.getFunctions (DatabaseService.new ⟨"firestore", {}⟩) [] [] = .ok [] :=
  c8_firestore_triggers_functions_empty (DatabaseService.new ⟨"firestore", {}⟩) rfl [] [] [] []

/-- Claim C9: on a connected document-store adapter, `getTables` maps
each collection identifier to a Table Descriptor with that name and an
empty column sequence, and every returned descriptor has empty
columns. -/
theorem c9_firestore_tables_empty_columns (conn : DatabaseConnectionConfig)
    (pgRows : List (String × List ColumnInfo)) (myRows : List (String × String))
    (fsCollections : List String) :
    DatabaseService.getTables (connectedService "firestore" conn) pgRows myRows fsCollections
      = .ok (fsCollections.map fun id => ⟨id, []⟩) ∧
    ∀ ti ∈ fsCollections.map (fun id => (⟨id, []⟩ : TableInfo)), ti.columns = [] := by
  constructor
  · simp [DatabaseService.getTables, connectedService, DatabaseService.connect,
      DatabaseService.new]
  · intro ti hti
    simp only [List.mem_map] at hti
    obtain ⟨id, _, rfl⟩ := hti
    rfl

/-- Claim C10: on a configuration whose kind is outside the three
recognized values, the catalog listings succeed with the empty
sequence, the SQL-only operations throw the unsupported-type error,
and `disconnect` does nothing. -/
theorem c10_unknown_kind_operation_split (svc : DatabaseService)
    (h1 : svc.config.type ≠ "postgres") (h2 : svc.config.type ≠ "mysql")
    (h3 : svc.config.type ≠ "firestore")
    (pgTb : List (String × List ColumnInfo)) (myTb : List (String × String))
    (fsC : List String) (pgT myT : List TriggerInfo) (pgF myF : List FunctionInfo)
    (q t1 t2 : String) (pgQ myQ : Except String (List QRow))
    (pgS myS : Option String) (pgD myD : List QRow) (pgE myE : Option String) :
    DatabaseService.getTables svc pgTb myTb fsC = .ok [] ∧
    DatabaseService.getTriggers svc pgT myT = .ok [] ∧
    DatabaseService.getFunctions svc pgF myF = .ok [] ∧
    DatabaseService.executeQuery svc q pgQ myQ = .thrown "Unsupported database type" ∧
    DatabaseService.exportTableSchema svc t1 pgS myS
      = .thrown "Unsupported database type" ∧
    DatabaseService.exportTableData svc t2 pgD myD
      = .thrown "Unsupported database type" ∧
    DatabaseService.disconnect svc pgE myE = .ok () := by
  refine ⟨?_, ?_, ?_, ?_, ?_, ?_, ?_⟩ <;>
    simp [DatabaseService.getTables, DatabaseService.getTriggers,
      DatabaseService.getFunctions, DatabaseService.executeQuery,
      DatabaseService.exportTableSchema, DatabaseService.exportTableData,
      DatabaseService.disconnect, h1, h2, h3]

/-- Witness for C10: the split holds concretely for the kind
`sqlite`. -/
theorem c10_unknown_kind_operation_split_witness :
    DatabaseService.getTables (DatabaseService.new ⟨"sqlite", {}⟩) [] [] [] = .ok [] ∧
    DatabaseService.getTriggers (DatabaseService.new ⟨"sqlite", {}⟩) [] [] = .ok [] ∧
    DatabaseService.getFunctions (DatabaseService.new ⟨"sqlite", {}⟩) [] [] = .ok [] ∧
    DatabaseService.executeQuery (DatabaseService.new ⟨"sqlite", {}⟩) "SELECT 1"
        (.ok []) (.ok []) = .thrown "Unsupported database type" ∧
    DatabaseService.exportTableSchema (DatabaseService.new ⟨"sqlite", {}⟩) "t" none none
      = .thrown "Unsupported database type" ∧
    DatabaseService.exportTableData (DatabaseService.new ⟨"sqlite", {}⟩) "t" [] []
      = .thrown "Unsupported database type" ∧
    DatabaseService.disconnect (DatabaseService.new ⟨"sqlite", {}⟩) none none = .ok () :=
  c10_unknown_kind_operation_split (DatabaseService.new ⟨"sqlite", {}⟩)
    (by decide) (by decide) (by decide) [] [] [] [] [] [] [] "SELECT 1" "t" "t"
    (.ok []) (.ok []) none none [] [] none none

/-- Claim C7: for every column catalog, the mysql `getTables` path —
wrapping the comma-delimited concatenation of JSON object fragments in
brackets and parsing it — yields exactly the same table-descriptor
sequence as the postgres path consuming the native array-of-objects
aggregate. -/
theorem c7_getTables_dialect_equivalence (conn : DatabaseConnectionConfig)
    (cat : List (String × List ColumnInfo)) :
    DatabaseService.getTables (connectedService "mysql" conn) []
        (cat.map fun tc => (tc.1, joinWith "," (tc.2.map columnToJson))) []
      = DatabaseService.getTables (connectedService "postgres" conn) cat [] [] ∧
    DatabaseService.getTables (connectedService "postgres" conn) cat [] []
      = .ok (cat.map fun tc => ⟨tc.1, tc.2⟩) := by
  have hpg : DatabaseService.getTables (connectedService "postgres" conn) cat [] []
      = .ok (cat.map fun tc => ⟨tc.1, tc.2⟩) := by
    simp [DatabaseService.getTables, connectedService, DatabaseService.connect,
      DatabaseService.new]
  have hmy : DatabaseService.getTables (connectedService "mysql" conn) []
      (cat.map fun tc => (tc.1, joinWith "," (tc.2.map columnToJson))) []
      = parseMyTableRows (cat.map fun tc => (tc.1, joinWith "," (tc.2.map columnToJson))) := by
    simp [DatabaseService.getTables, connectedService, DatabaseService.connect,
      DatabaseService.new]
  exact ⟨by rw [hmy, parseMyTableRows_map, hpg], hpg⟩

/-- Claim C4: on each relational kind and every non-empty row
sequence, `exportTableData` emits one INSERT statement per row joined
by newlines, each value rendered by the specification's three-case
rule (`specFormatValue`); in particular the row `(1, NULL)` of table
`users` yields exactly the statement the specification displays. -/
theorem c4_export_data_insert_format :
    (∀ (conn : DatabaseConnectionConfig) (t : String) (r0 : QRow)
        (rest myRows : List QRow),
      DatabaseService.exportTableData (connectedService "postgres" conn) t
          (r0 :: rest) myRows
        = .ok (joinWith "\n" ((r0 :: rest).map fun row =>
            "INSERT INTO " ++ t ++ " (" ++ joinWith ", " (r0.map Prod.fst) ++
              ") VALUES (" ++ joinWith ", " ((r0.map Prod.fst).map fun c =>
                specFormatValue (rowGet row c)) ++ ");"))) ∧
    (∀ (conn : DatabaseConnectionConfig) (t : String) (r0 : QRow)
        (rest pgRows : List QRow),
      DatabaseService.exportTableData (connectedService "mysql" conn) t
          pgRows (r0 :: rest)
        = .ok (joinWith "\n" ((r0 :: rest).map fun row =>
            "INSERT INTO " ++ t ++ " (" ++ joinWith ", " (r0.map Prod.fst) ++
              ") VALUES (" ++ joinWith ", " ((r0.map Prod.fst).map fun c =>
                specFormatValue (rowGet row c)) ++ ");"))) ∧
    DatabaseService.exportTableData (connectedService "postgres" {}) "users"
        [[("id", SqlValue.other "1"), ("name", SqlValue.null)]] []
      = .ok "INSERT INTO users (id, name) VALUES (1, NULL);" := by
  refine ⟨?_, ?_, ?_⟩
  · intro conn t r0 rest myRows
    have hx : DatabaseService.exportTableData (connectedService "postgres" conn) t
        (r0 :: rest) myRows = .ok (buildInserts t (r0 :: rest)) := by
      simp [DatabaseService.exportTableData, connectedService, DatabaseService.connect,
        DatabaseService.new]
    rw [hx]
    simp only [buildInserts, formatVal_eq_spec]
  · intro conn t r0 rest pgRows
    have hx : DatabaseService.exportTableData (connectedService "mysql" conn) t
        pgRows (r0 :: rest) = .ok (buildInserts t (r0 :: rest)) := by
      simp [DatabaseService.exportTableData, connectedService, DatabaseService.connect,
        DatabaseService.new]
    rw [hx]
    simp only [buildInserts, formatVal_eq_spec]
  · rfl

/-- Claim C5: the data export round-trips.  For a duplicate-free
column list and uniform rows of well-behaved values, `exportTableData`
emits exactly one INSERT per row whose VALUES list is the joined
rendering of that row's values, and a standard SQL reader
(`parseValueList`, undoing the quote doubling) recovers every row's
values exactly from the emitted text. -/
theorem c5_export_data_roundtrip (conn : DatabaseConnectionConfig) (t : String)
    (cols : List String) (vss : List (List SqlValue))
    (hne : vss ≠ []) (hnd : cols.Nodup)
    (hlen : ∀ vs ∈ vss, vs.length = cols.length)
    (hgood : ∀ vs ∈ vss, ∀ v ∈ vs, goodValB v = true) :
    DatabaseService.exportTableData (connectedService "postgres" conn) t
        (vss.map (cols.zip ·)) []
      = .ok (joinWith "\n" (vss.map fun vs =>
          "INSERT INTO " ++ t ++ " (" ++ joinWith ", " cols ++ ") VALUES (" ++
            joinWith ", " (vs.map formatVal) ++ ");")) ∧
    ∀ vs ∈ vss, vs ≠ [] →
      parseValueList vs.length (joinWith ", " (vs.map formatVal)).data = some vs := by
  constructor
  · obtain ⟨vs0, vss', rfl⟩ : ∃ a b, vss = a :: b := by
      cases vss with
      | nil => exact absurd rfl hne
      | cons a b => exact ⟨a, b, rfl⟩
    have hx : DatabaseService.exportTableData (connectedService "postgres" conn) t
        ((vs0 :: vss').map (cols.zip ·)) []
        = .ok (buildInserts t ((vs0 :: vss').map (cols.zip ·))) := by
      simp [DatabaseService.exportTableData, connectedService, DatabaseService.connect,
        DatabaseService.new]
    rw [hx]
    simp only [List.map_cons, buildInserts]
    have hlen0 : cols.length ≤ vs0.length := le_of_eq (hlen vs0 (by simp)).symm
    have hfst : (cols.zip vs0).map Prod.fst = cols := List.map_fst_zip _ _ hlen0
    rw [hfst]
    have hvals : ∀ vs ∈ vs0 :: vss',
        cols.map (fun c => formatVal (rowGet (cols.zip vs) c)) = vs.map formatVal := by
      intro vs hvs
      rw [show (fun c => formatVal (rowGet (cols.zip vs) c))
          = formatVal ∘ (rowGet (cols.zip vs)) from rfl]
      rw [← List.map_map, map_rowGet_zip cols vs hnd (hlen vs hvs)]
    have htail : List.map (fun row => "INSERT INTO " ++ t ++ " (" ++
          joinWith ", " cols ++ ") VALUES (" ++
          joinWith ", " (List.map (fun c => formatVal (rowGet row c)) cols) ++ ");")
          (List.map (fun x => cols.zip x) vss')
        = List.map (fun vs => "INSERT INTO " ++ t ++ " (" ++ joinWith ", " cols ++
            ") VALUES (" ++ joinWith ", " (List.map formatVal vs) ++ ");") vss' := by
      rw [List.map_map]
      apply List.map_congr_left
      intro vs hvs
      simp only [Function.comp]
      rw [hvals vs (by simp [hvs])]
    rw [hvals vs0 (by simp), htail]
  · intro vs hvs hvne
    exact parseValueList_roundtrip vs vs.length hvne le_rfl (hgood vs hvs)

/-- Witness for C5: a one-row, one-column table holding the name
O(quote)Brien: the emitted VALUES text parses back to the original
string value, quote doubling included. -/
theorem c5_export_data_roundtrip_witness :
    parseValueList 1 (joinWith ", "
        ([SqlValue.str ("O" ++ String.singleton squote ++ "Brien")].map formatVal)).data
      = some [SqlValue.str ("O" ++ String.singleton squote ++ "Brien")] :=
  (c5_export_data_roundtrip {} "employees" ["name"]
      [[SqlValue.str ("O" ++ String.singleton squote ++ "Brien")]]
      (by decide) (by decide) (by decide) (by decide)).2
    [SqlValue.str ("O" ++ String.singleton squote ++ "Brien")] (by decide) (by decide)
